import Mathlib

/-!
Verification of the Psi4 program harness (qcengine/programs/psi4.py).

The development shallowly embeds the `Psi4Harness.compute` method and the
collaborators it exercises.  Python dictionaries are modelled as association
lists over `String` keys, Python floats as exact rationals, Python `in` on
strings as substring containment, and the external process boundary
(`execute`, `temporary_directory`, `psi4.schema_wrapper.run_qcschema`) as
an explicit environment of outcomes plus an effect trace.
-/

set_option maxHeartbeats 1600000
set_option maxRecDepth 100000

namespace Psi4

/-- Tests whether the first character list occurs at the head of the second
(character-by-character equality). -/
def leadMatch : List Char → List Char → Bool
  | [], _ => true
  | _ :: _, [] => false
  | a :: as, b :: bs => a == b && leadMatch as bs

/-- Tests whether `pat` occurs contiguously anywhere inside the second list. -/
def hasSub (pat : List Char) : List Char → Bool
  | [] => leadMatch pat []
  | s@(_ :: rest) => leadMatch pat s || hasSub pat rest

/-- Model of the Python expression `pat in s` on strings: substring
containment. -/
def strContains (s pat : String) : Bool := hasSub pat.data s.data

/-- Model of Python dictionary assignment `m[k] = v` on an association list:
replace the value at an existing key, otherwise append the new binding. -/
def dictSet {α : Type} (m : List (String × α)) (k : String) (v : α) :
    List (String × α) :=
  if (m.map Prod.fst).contains k then
    m.map fun kv => if kv.1 == k then (kv.1, v) else kv
  else m ++ [(k, v)]

/-- First-match lookup in an association list, the reading semantics of a
Python dictionary access. -/
def dictGet {α : Type} : List (String × α) → String → Option α
  | [], _ => none
  | kv :: rest, k => if kv.1 == k then some kv.2 else dictGet rest k

/-- Model of the Python builtin `int` applied to an exact rational:
truncation toward zero. -/
def pyTrunc (q : Rat) : Int :=
  if 0 ≤ q.num then Int.ediv q.num q.den else - Int.ediv (- q.num) q.den

/-- Floor of an exact rational as an integer. -/
def ratFloor (q : Rat) : Int := Int.ediv q.num q.den

/-- Model of the Python builtin `round` to the nearest integer with ties to
even (banker rounding), on exact rationals. -/
def roundHalfEven (q : Rat) : Int :=
  let f := ratFloor q
  let r := q - (f : Rat)
  if r < 1 / 2 then f
  else if 1 / 2 < r then f + 1
  else if f % 2 = 0 then f else f + 1

/-- Model of the Python call `round(q, 3)` on exact rationals. -/
def roundTo3 (q : Rat) : Rat := ((roundHalfEven (q * 1000) : Int) : Rat) / 1000

/-- Model of Python float formatting `f"{q}"` for the exact-rational stand-in
of a float. -/
def pyFloatStr (q : Rat) : String := toString q

/-- The error taxonomy raised by the harness: qcengine exceptions
`ResourceError`, `RandomError`, `InputError`, `UnknownError`. -/
inductive Err where
  | resourceError (msg : String)
  | randomError (msg : String)
  | inputError (msg : String)
  | unknownError (msg : String)
deriving DecidableEq, Repr

/-- The error dispatch at the end of `Psi4Harness.compute`
(psi4.py lines 217-233): an ordered chain of substring tests over the raw
failure message, first match wins. -/
def dispatchError (error_message error_type : String) : Err :=
  if strContains error_message "PSIO Error" then
    if strContains error_message "scratch directory" then
      .resourceError error_message
    else
      .randomError error_message
  else if strContains error_message "SIGSEV" || strContains error_message "SIGSEGV"
      || strContains error_message "segmentation fault" then
    .randomError error_message
  else if strContains error_message "TypeError: set_global_option"
      || error_type == "ValidationError" then
    .inputError error_message
  else if strContains error_message "RHF reference is only for singlets" then
    .inputError error_message
  else
    .unknownError error_message

/-- C1: a failure message containing the storage marker "PSIO Error" together
with a scratch-directory mention is dispatched to `ResourceError`; the same
storage marker without that mention is dispatched to `RandomError`
(first-match-wins ordering of the dispatch). -/
theorem dispatch_psio_precedence (msg ty : String)
    (h : strContains msg "PSIO Error" = true) :
    (strContains msg "scratch directory" = true →
      dispatchError msg ty = .resourceError msg) ∧
    (strContains msg "scratch directory" = false →
      dispatchError msg ty = .randomError msg) := by
  unfold dispatchError
  constructor <;> intro hs <;> simp [h, hs]

/-- Witness for C1 at two concrete failure messages: one with the
scratch-directory mention, one without. -/
theorem dispatch_psio_precedence_witness :
    (strContains "PSIO Error: cannot open scratch directory" "PSIO Error" = true ∧
      (strContains "PSIO Error: cannot open scratch directory" "scratch directory" = true →
        dispatchError "PSIO Error: cannot open scratch directory" "execution_error" =
          .resourceError "PSIO Error: cannot open scratch directory") ∧
      (strContains "PSIO Error: cannot open scratch directory" "scratch directory" = false →
        dispatchError "PSIO Error: cannot open scratch directory" "execution_error" =
          .randomError "PSIO Error: cannot open scratch directory")) ∧
    (strContains "PSIO Error: random fault" "PSIO Error" = true ∧
      (strContains "PSIO Error: random fault" "scratch directory" = true →
        dispatchError "PSIO Error: random fault" "execution_error" =
          .resourceError "PSIO Error: random fault") ∧
      (strContains "PSIO Error: random fault" "scratch directory" = false →
        dispatchError "PSIO Error: random fault" "execution_error" =
          .randomError "PSIO Error: random fault")) :=
  ⟨⟨by decide, dispatch_psio_precedence _ _ (by decide)⟩,
   ⟨by decide, dispatch_psio_precedence _ _ (by decide)⟩⟩

/-- C2 counterexample: a message carrying a fatal-signal marker is NOT
dispatched to `RandomError` when it also contains "PSIO Error" with a
scratch-directory mention — the storage rule fires first and yields
`ResourceError`. -/
theorem dispatch_signal_cex :
    strContains "PSIO Error in scratch directory after SIGSEGV" "SIGSEGV" = true ∧
    dispatchError "PSIO Error in scratch directory after SIGSEGV" "execution_error" =
      .resourceError "PSIO Error in scratch directory after SIGSEGV" ∧
    dispatchError "PSIO Error in scratch directory after SIGSEGV" "execution_error" ≠
      .randomError "PSIO Error in scratch directory after SIGSEGV" := by
  refine ⟨by decide, rfl, by decide⟩

/-- C2 amended: a failure message containing a fatal-signal marker ("SIGSEV",
"SIGSEGV" or "segmentation fault") is dispatched to `RandomError` provided the
higher-precedence storage marker "PSIO Error" is absent from the message. -/
theorem dispatch_signal_amended (msg ty : String)
    (hsig : (strContains msg "SIGSEV" || strContains msg "SIGSEGV"
      || strContains msg "segmentation fault") = true)
    (hpsio : strContains msg "PSIO Error" = false) :
    dispatchError msg ty = .randomError msg := by
  unfold dispatchError
  simp [hpsio, hsig]

/-- Witness for the amended C2 at a concrete crashed-run message. -/
theorem dispatch_signal_amended_witness :
    (strContains "run died with SIGSEGV" "SIGSEV" || strContains "run died with SIGSEGV" "SIGSEGV"
      || strContains "run died with SIGSEGV" "segmentation fault") = true ∧
    strContains "run died with SIGSEGV" "PSIO Error" = false ∧
    dispatchError "run died with SIGSEGV" "execution_error" =
      .randomError "run died with SIGSEGV" :=
  ⟨by decide, by decide, dispatch_signal_amended _ _ (by decide) (by decide)⟩

/-- Parsed version identifier.  Modelled from the external `parse_version`
collaborator (qcelemental, deferring to the packaging library), restricted to
the PEP 440 shapes this harness compares: a release tuple, an optional
pre-release segment (letter rank, number) and an optional dev segment. -/
structure PVersion where
  release : List Nat
  pre : Option (Nat × Nat) := none
  dev : Option Nat := none
deriving DecidableEq, Repr

/-- Compares release tuples, padding the shorter tuple with zeros as PEP 440
prescribes. -/
def relCmp : List Nat → List Nat → Ordering
  | [], bs => if bs.all fun b => b == 0 then .eq else .lt
  | a :: as, [] => (compare a 0).then (relCmp as [])
  | a :: as, b :: bs => (compare a b).then (relCmp as bs)

/-- Sort key for the pre-release segment: a final release sorts after every
pre-release of the same release tuple. -/
def preKey : Option (Nat × Nat) → Nat × Nat × Nat
  | none => (1, 0, 0)
  | some (r, n) => (0, r, n)

/-- Sort key for the dev segment: a non-dev version sorts after every dev
version at the same pre-release level. -/
def devKey : Option Nat → Nat × Nat
  | none => (1, 0)
  | some d => (0, d)

/-- PEP 440 comparison on the modelled version shapes. -/
def pvCmp (v w : PVersion) : Ordering :=
  (relCmp v.release w.release).then <|
    ((compare (preKey v.pre).1 (preKey w.pre).1).then
      ((compare (preKey v.pre).2.1 (preKey w.pre).2.1).then
        (compare (preKey v.pre).2.2 (preKey w.pre).2.2))).then <|
      (compare (devKey v.dev).1 (devKey w.dev).1).then
        (compare (devKey v.dev).2 (devKey w.dev).2)

/-- Strict version ordering, the meaning of `pversion < parse_version(...)`. -/
def pvLt (v w : PVersion) : Bool := pvCmp v w == .lt

/-- The minimum supported version threshold, `parse_version("1.2")`. -/
def v1_2 : PVersion := { release := [1, 2] }

/-- The modern protocol threshold, `parse_version("1.4a2.dev160")`. -/
def v1_4a2dev160 : PVersion := { release := [1, 4], pre := some (0, 2), dev := some 160 }

/-- Value universe for entries of the extras mapping: an engine-internal
named-variable table or a boolean flag. -/
inductive ExtraVal where
  | vars (l : List (String × Rat))
  | flag (b : Bool)
deriving DecidableEq, Repr

/-- The error payload of an engine output dictionary: absent, a bare string
(no error_message key inside), or a structured record with error_message and
error_type. -/
inductive ErrVal where
  | absent
  | plain (s : String)
  | structured (error_message error_type : String)
deriving DecidableEq, Repr

/-- The model block of an AtomicInput: method plus basis-like descriptor,
where the descriptor may be null. -/
structure ModelSpec where
  method : String := ""
  basis : Option String := none
deriving DecidableEq, Repr

/-- The fields of a qcelemental AtomicInput that `Psi4Harness.compute`
touches.  The molecule is reduced to its molecular multiplicity, the only
molecule field the harness reads. -/
structure AtomicInput where
  schema_name : String := "qcschema_input"
  model : ModelSpec := {}
  keywords : List (String × String) := []
  molecular_multiplicity : Nat := 1
  extras : List (String × ExtraVal) := []
deriving DecidableEq, Repr

/-- The execution resource envelope handed to `compute`. -/
structure TaskConfig where
  ncores : Nat := 1
  memory : Rat := 1
  scratch_directory : Option String := none
deriving DecidableEq, Repr

/-- A Python data dictionary as flowing through `compute`: the union of the
keys the method reads or writes, each optional where the key may be absent.
Provenance is flattened to its memory and nthreads entries. -/
structure DataDict where
  schema_name : String := ""
  basis : Option String := none
  keywords : List (String × String) := []
  molecular_multiplicity : Nat := 1
  nthreads : Option Nat := none
  memory : Option Int := none
  success : Option Bool := none
  return_output : Option Bool := none
  error : ErrVal := .absent
  extras : Option (List (String × ExtraVal)) := none
  qcvars : Option (List (String × Rat)) := none
  raw_output : Option String := none
  stdout : Option String := none
  provMemory : Option Rat := none
  provNthreads : Option Nat := none
deriving DecidableEq, Repr

/-- A staged input file, tagged by the serialization the harness chose:
`json.dumps` for the legacy protocol, `serialize("msgpack-ext")` for the
modern protocol. -/
inductive Staged where
  | jsonText (d : DataDict)
  | msgpackBin (d : DataDict)
deriving DecidableEq, Repr

/-- Externally visible steps of one `compute` call, in order: scratch
directory creation and removal (the `temporary_directory` context manager,
modelled from the spec because qcengine.util is outside the examined source),
subprocess execution, and embedded in-process invocation. -/
inductive Effect where
  | scratchCreate (dir : String)
  | execute (cmd : List String) (infiles : List (String × Staged))
      (outfiles : List String) (binary : List String)
  | embeddedInvoke
  | scratchRemove (dir : String)
deriving DecidableEq, Repr

/-- The shared state of the embedded engine library touched by the harness:
the IOManager default path, the thread count, and the memory setting. -/
structure EngineState where
  default_path : String := ""
  num_threads : Nat := 1
  memory_setting : String := ""
deriving DecidableEq, Repr

/-- Outcome of the in-process `psi4.schema_wrapper.run_qcschema` entry point:
a result dictionary together with the engine state it left behind, or an
exception that propagates, again with the engine state it left behind. -/
inductive EmbedOutcome where
  | ok (st : EngineState) (out : DataDict)
  | raises (st : EngineState)
deriving DecidableEq, Repr

/-- Outcome of one `execute` subprocess call: the success flag, the captured
stderr, and the parsed content of the declared output file (meaningful only
when success holds). -/
structure ExecOutcome where
  success : Bool := false
  stderr : String := ""
  out : DataDict := {}
deriving DecidableEq, Repr

/-- The environment of one `compute` call: everything the method observes
from outside — the resolved version, the resolved executable path, the
scratch directory name the context manager picks, and the behavior of the
external engine on each invocation style. -/
structure Env where
  version : PVersion
  versionString : String := ""
  psi4Path : String := "psi4"
  tmpdir : String := "tmp_psi_scratch"
  legacyExec : ExecOutcome := {}
  modernExec : ExecOutcome := {}
  runQcschema : EngineState → AtomicInput → EmbedOutcome := fun st _ => .raises st

/-- Result channel of `compute`: a classified raised error, or the exception
of the embedded entry point propagating unclassified through the method. -/
inductive CErr where
  | classified (e : Err)
  | embeddedRaise
deriving DecidableEq, Repr

/-- Full outcome of a `compute` call: the returned or raised value, the
effect trace, the final state of the caller-owned input model, and the final
embedded engine state. -/
abbrev ComputeResult := Except CErr DataDict × List Effect × AtomicInput × EngineState

/-- Lines 106-107: capture the basis and overwrite it in place with the
empty-string placeholder when it is null or empty (the Python idiom
old_basis or ""). -/
def substBasis (inp : AtomicInput) : AtomicInput :=
  { inp with model := { inp.model with basis := some (inp.model.basis.getD "") } }

/-- Lines 111-112: the guard for reference injection — multiplicity differs
from 1 and the lower-cased keyword view contains no reference key. -/
def refCondition (inp : AtomicInput) : Bool :=
  inp.molecular_multiplicity != 1 &&
    !(((inp.keywords.map fun kv => (kv.1.toLower, kv.2)).map Prod.fst).contains "reference")

/-- Lines 111-113: inject the uhf reference keyword into the caller keyword
mapping when the guard holds. -/
def applyReference (inp : AtomicInput) : AtomicInput :=
  if refCondition inp then { inp with keywords := dictSet inp.keywords "reference" "uhf" }
  else inp

/-- Model of `extras.get(k, False)` used as a condition: dictionary lookup
with Python truthiness of the found value. -/
def getFlag (m : List (String × ExtraVal)) (k : String) : Bool :=
  match dictGet m k with
  | some (.flag b) => b
  | some (.vars l) => !l.isEmpty
  | none => false

/-- Model of `input_model.dict()` restricted to the keys this harness later
touches. -/
def inputAsDict (inp : AtomicInput) : DataDict :=
  { schema_name := inp.schema_name, basis := inp.model.basis,
    keywords := inp.keywords, molecular_multiplicity := inp.molecular_multiplicity,
    extras := some inp.extras }

/-- Lines 119-124: the input dictionary enriched with nthreads, the 95
percent memory budget in bytes, success false, and the return_output flag. -/
def legacyBase (inp : AtomicInput) (cfg : TaskConfig) : DataDict :=
  { inputAsDict inp with
      nthreads := some cfg.ncores,
      memory := some (pyTrunc (cfg.memory * (1024 * 1024 * 1024) * (19 / 20))),
      success := some false,
      return_output := some true }

/-- Lines 119-126: the legacy staged input — `legacyBase` with the schema
name renamed to the old style when it is the new style. -/
def legacyInputData (inp : AtomicInput) (cfg : TaskConfig) : DataDict :=
  if (legacyBase inp cfg).schema_name == "qcschema_input" then
    { legacyBase inp cfg with schema_name := "qc_schema_input" }
  else legacyBase inp cfg

/-- Line 130: the legacy command line. -/
def legacyCmd (env : Env) : List String :=
  [env.psi4Path, "--scratch", env.tmpdir, "--json", "data.json"]

/-- Lines 186-196: the modern command line. -/
def modernCmd (env : Env) (cfg : TaskConfig) : List String :=
  [env.psi4Path, "--scratch", env.tmpdir, "--nthread", toString cfg.ncores,
   "--memory", pyFloatStr cfg.memory ++ "GB", "--qcschema", "data.msgpack"]

/-- Lines 139-140: default the extras mapping to empty when the key is
absent. -/
def ensureExtras (od : DataDict) : DataDict :=
  if od.extras = none then { od with extras := some [] } else od

/-- Lines 139-149: default the extras mapping, pop the psi4:qcvars key, and
relocate a truthy payload into extras — under qcvars, or under local_qcvars
when qcvars is already occupied.  A falsy payload (absent key or empty
table) is popped without being relocated. -/
def relocateQcvars (od : DataDict) : DataDict :=
  match od.qcvars with
  | none => { ensureExtras od with qcvars := none }
  | some l =>
    if l.isEmpty then { ensureExtras od with qcvars := none }
    else if (((ensureExtras od).extras.getD []).map Prod.fst).contains "qcvars" then
      { ensureExtras od with
          qcvars := none,
          extras := some (dictSet ((ensureExtras od).extras.getD []) "local_qcvars" (.vars l)) }
    else
      { ensureExtras od with
          qcvars := none,
          extras := some (dictSet ((ensureExtras od).extras.getD []) "qcvars" (.vars l)) }

/-- Lines 166-170: reset the schema name, drop the echoed memory and nthreads
directives, and rename raw_output to stdout. -/
def legacyReset (od : DataDict) : DataDict :=
  { od with schema_name := "qcschema_output", memory := none, nthreads := none,
            stdout := od.raw_output, raw_output := none }

/-- Lines 151-157: the failure message carried by an engine output whose
success flag is false — the bare error value when it has no error_message
key, otherwise the error_message entry. -/
def errMsgOf (od : DataDict) : String :=
  match od.error with
  | .plain s => s
  | .structured m _ => m
  | .absent => ""

/-- Lines 151-157: the failure type paired with `errMsgOf`. -/
def errTypeOf (od : DataDict) : String :=
  match od.error with
  | .plain _ => "internal_error"
  | .structured _ t => t
  | .absent => "internal_error"

/-- Lines 235-243 on the success path: restore the captured basis, overwrite
the provenance memory and nthreads entries from the TaskConfig, and drop the
return_output key. -/
def finalize (od : DataDict) (old_basis : Option String) (cfg : TaskConfig) : DataDict :=
  { od with basis := old_basis,
            provMemory := some (roundTo3 cfg.memory),
            provNthreads := some cfg.ncores,
            return_output := none }

/-- Lines 178-179: thread count and memory overrides applied to the embedded
engine before the in-process call.  The default-path override of line 180 is
commented out in the source and therefore absent here. -/
def embedSetup (st : EngineState) (cfg : TaskConfig) : EngineState :=
  { st with num_threads := cfg.ncores, memory_setting := pyFloatStr cfg.memory ++ "GB" }

/-- The effect trace of the legacy branch: scratch scope around one
subprocess call staging data.json as JSON text. -/
def legacyEffects (inp2 : AtomicInput) (cfg : TaskConfig) (env : Env) : List Effect :=
  [Effect.scratchCreate env.tmpdir,
   Effect.execute (legacyCmd env)
     [("data.json", Staged.jsonText (legacyInputData inp2 cfg))] ["data.json"] [],
   Effect.scratchRemove env.tmpdir]

/-- Lines 116-170: the legacy file-protocol branch. -/
def legacyRun (ob : Option String) (inp2 : AtomicInput) (cfg : TaskConfig)
    (env : Env) (st : EngineState) : ComputeResult :=
  if env.legacyExec.success then
    if (relocateQcvars env.legacyExec.out).success = some false then
      (.error (.classified (dispatchError (errMsgOf (relocateQcvars env.legacyExec.out))
        (errTypeOf (relocateQcvars env.legacyExec.out)))), legacyEffects inp2 cfg env, inp2, st)
    else
      (.ok (finalize (legacyReset (relocateQcvars env.legacyExec.out)) ob cfg),
        legacyEffects inp2 cfg env, inp2, st)
  else
    (.error (.classified (dispatchError env.legacyExec.stderr "execution_error")),
      legacyEffects inp2 cfg env, inp2, st)

/-- The effect trace of the modern branch: scratch scope around one
subprocess call staging data.msgpack as binary msgpack. -/
def modernEffects (inp2 : AtomicInput) (cfg : TaskConfig) (env : Env) : List Effect :=
  [Effect.scratchCreate env.tmpdir,
   Effect.execute (modernCmd env cfg)
     [("data.msgpack", Staged.msgpackBin (inputAsDict inp2))]
     ["data.msgpack"] ["data.msgpack"],
   Effect.scratchRemove env.tmpdir]

/-- Lines 185-214: the modern file-protocol branch. -/
def modernRun (ob : Option String) (inp2 : AtomicInput) (cfg : TaskConfig)
    (env : Env) (st : EngineState) : ComputeResult :=
  if env.modernExec.success then
    if env.modernExec.out.success = some false then
      (.error (.classified (dispatchError (errMsgOf env.modernExec.out)
        (errTypeOf env.modernExec.out))), modernEffects inp2 cfg env, inp2, st)
    else
      (.ok (finalize env.modernExec.out ob cfg), modernEffects inp2 cfg env, inp2, st)
  else
    (.error (.classified (dispatchError env.modernExec.stderr "execution_error")),
      modernEffects inp2 cfg env, inp2, st)

/-- Line 182: the psiapi_evaluated marker stamped into the extras of the
embedded output. -/
def embedMark (out : DataDict) : DataDict :=
  { out with extras := some (dictSet (out.extras.getD []) "psiapi_evaluated" (.flag true)) }

/-- The effect trace of the embedded branch: scratch scope around one
in-process invocation. -/
def embedEffects (env : Env) : List Effect :=
  [Effect.scratchCreate env.tmpdir, Effect.embeddedInvoke, Effect.scratchRemove env.tmpdir]

/-- Lines 174-184 and 206-214: the embedded in-process branch.  The prior
default path is captured before the call; the restore of line 184 sits on the
straight-line success path only — when the entry point raises, the exception
propagates and no restore statement runs, so the engine keeps whatever state
the entry point left behind. -/
def embeddedRun (ob : Option String) (inp2 : AtomicInput) (cfg : TaskConfig)
    (env : Env) (st : EngineState) : ComputeResult :=
  match env.runQcschema (embedSetup st cfg) inp2 with
  | .raises st2 => (.error .embeddedRaise, embedEffects env, inp2, st2)
  | .ok st2 out =>
    if (embedMark out).success = some false then
      (.error (.classified (dispatchError (errMsgOf (embedMark out))
        (errTypeOf (embedMark out)))), embedEffects env, inp2,
        { st2 with default_path := st.default_path })
    else
      (.ok (finalize (embedMark out) ob cfg), embedEffects env, inp2,
        { st2 with default_path := st.default_path })

/-- The `Psi4Harness.compute` method, psi4.py lines 86-245.  Version gate
first; then the in-place basis substitution and keyword injection on the
caller-owned input (the captured old basis is the value before substitution);
then the protocol branch chosen from the resolved version and the psiapi
extras flag. -/
def compute (inp : AtomicInput) (cfg : TaskConfig) (env : Env) (st : EngineState) :
    ComputeResult :=
  if pvLt env.version v1_2 then
    (.error (.classified (.resourceError
      ("Psi4 version " ++ env.versionString ++ " not understood."))), [], inp, st)
  else if pvLt env.version v1_4a2dev160 then
    legacyRun inp.model.basis (applyReference (substBasis inp)) cfg env st
  else if getFlag (applyReference (substBasis inp)).extras "psiapi" then
    embeddedRun inp.model.basis (applyReference (substBasis inp)) cfg env st
  else
    modernRun inp.model.basis (applyReference (substBasis inp)) cfg env st

/-- Basis substitution leaves the extras mapping unchanged. -/
theorem substBasis_extras (inp : AtomicInput) : (substBasis inp).extras = inp.extras := rfl

/-- Basis substitution rewrites the basis to the placeholder string. -/
theorem substBasis_model_basis (inp : AtomicInput) :
    (substBasis inp).model.basis = some (inp.model.basis.getD "") := rfl

/-- Reference injection leaves the extras mapping unchanged. -/
theorem applyReference_extras (inp : AtomicInput) :
    (applyReference inp).extras = inp.extras := by
  unfold applyReference; split <;> rfl

/-- Reference injection leaves the model block unchanged. -/
theorem applyReference_model (inp : AtomicInput) :
    (applyReference inp).model = inp.model := by
  unfold applyReference; split <;> rfl

/-- Reference injection leaves the multiplicity unchanged. -/
theorem applyReference_mult (inp : AtomicInput) :
    (applyReference inp).molecular_multiplicity = inp.molecular_multiplicity := by
  unfold applyReference; split <;> rfl

/-- Reference injection leaves the schema name unchanged. -/
theorem applyReference_schema (inp : AtomicInput) :
    (applyReference inp).schema_name = inp.schema_name := by
  unfold applyReference; split <;> rfl

/-- The keyword mapping after reference injection, as a closed form over the
guard. -/
theorem applyReference_keywords (inp : AtomicInput) :
    (applyReference inp).keywords =
      if refCondition inp then dictSet inp.keywords "reference" "uhf"
      else inp.keywords := by
  unfold applyReference; split <;> simp_all

/-- The legacy branch always produces the legacy effect trace. -/
theorem legacyRun_eff (ob : Option String) (inp2 : AtomicInput) (cfg : TaskConfig)
    (env : Env) (st : EngineState) :
    (legacyRun ob inp2 cfg env st).2.1 = legacyEffects inp2 cfg env := by
  unfold legacyRun
  split
  · split <;> rfl
  · rfl

/-- The legacy branch returns the normalized input unchanged from the branch
entry. -/
theorem legacyRun_input (ob : Option String) (inp2 : AtomicInput) (cfg : TaskConfig)
    (env : Env) (st : EngineState) :
    (legacyRun ob inp2 cfg env st).2.2.1 = inp2 := by
  unfold legacyRun
  split
  · split <;> rfl
  · rfl

/-- The modern branch always produces the modern effect trace. -/
theorem modernRun_eff (ob : Option String) (inp2 : AtomicInput) (cfg : TaskConfig)
    (env : Env) (st : EngineState) :
    (modernRun ob inp2 cfg env st).2.1 = modernEffects inp2 cfg env := by
  unfold modernRun
  split
  · split <;> rfl
  · rfl

/-- The modern branch returns the normalized input unchanged from the branch
entry. -/
theorem modernRun_input (ob : Option String) (inp2 : AtomicInput) (cfg : TaskConfig)
    (env : Env) (st : EngineState) :
    (modernRun ob inp2 cfg env st).2.2.1 = inp2 := by
  unfold modernRun
  split
  · split <;> rfl
  · rfl

/-- The embedded branch returns the normalized input unchanged from the
branch entry. -/
theorem embeddedRun_input (ob : Option String) (inp2 : AtomicInput) (cfg : TaskConfig)
    (env : Env) (st : EngineState) :
    (embeddedRun ob inp2 cfg env st).2.2.1 = inp2 := by
  unfold embeddedRun
  split
  · rfl
  · split <;> rfl

/-- A legacy branch that returns a value did so from a successful subprocess
call, and the value is the finalize of the relocated, reset engine output. -/
theorem legacyRun_ok (ob : Option String) (inp2 : AtomicInput) (cfg : TaskConfig)
    (env : Env) (st : EngineState) (od : DataDict)
    (h : (legacyRun ob inp2 cfg env st).1 = .ok od) :
    env.legacyExec.success = true ∧
    od = finalize (legacyReset (relocateQcvars env.legacyExec.out)) ob cfg := by
  unfold legacyRun at h
  split at h
  case isTrue hs =>
    split at h
    · simp at h
    · exact ⟨hs, by simpa using h.symm⟩
  case isFalse hs => simp at h

/-- A modern branch that returns a value did so from a successful subprocess
call, and the value is the finalize of the engine output. -/
theorem modernRun_ok (ob : Option String) (inp2 : AtomicInput) (cfg : TaskConfig)
    (env : Env) (st : EngineState) (od : DataDict)
    (h : (modernRun ob inp2 cfg env st).1 = .ok od) :
    env.modernExec.success = true ∧ od = finalize env.modernExec.out ob cfg := by
  unfold modernRun at h
  split at h
  case isTrue hs =>
    split at h
    · simp at h
    · exact ⟨hs, by simpa using h.symm⟩
  case isFalse hs => simp at h

/-- An embedded branch that returns a value did so from a non-raising entry
point, and the value is the finalize of the marked output. -/
theorem embeddedRun_ok (ob : Option String) (inp2 : AtomicInput) (cfg : TaskConfig)
    (env : Env) (st : EngineState) (od : DataDict)
    (h : (embeddedRun ob inp2 cfg env st).1 = .ok od) :
    ∃ st2 out, env.runQcschema (embedSetup st cfg) inp2 = .ok st2 out ∧
      od = finalize (embedMark out) ob cfg := by
  unfold embeddedRun at h
  rcases hq : env.runQcschema (embedSetup st cfg) inp2 with ⟨st2, out⟩ | st2 <;>
      rw [hq] at h
  · dsimp only at h
    split at h
    · simp at h
    · exact ⟨st2, out, rfl, by simpa using h.symm⟩
  · simp at h

/-- Below the minimum version the whole call collapses to the gate error. -/
theorem compute_lt12_spec (inp : AtomicInput) (cfg : TaskConfig) (env : Env)
    (st : EngineState) (h : pvLt env.version v1_2 = true) :
    compute inp cfg env st = (.error (.classified (.resourceError
      ("Psi4 version " ++ env.versionString ++ " not understood."))), [], inp, st) := by
  unfold compute
  rw [if_pos h]

/-- At or above the minimum and below the modern threshold the call is the
legacy branch on the normalized input. -/
theorem compute_legacy_spec (inp : AtomicInput) (cfg : TaskConfig) (env : Env)
    (st : EngineState) (h12 : pvLt env.version v1_2 = false)
    (h14 : pvLt env.version v1_4a2dev160 = true) :
    compute inp cfg env st =
      legacyRun inp.model.basis (applyReference (substBasis inp)) cfg env st := by
  unfold compute
  rw [if_neg (by simp [h12]), if_pos h14]

/-- At or above the modern threshold with the psiapi flag the call is the
embedded branch on the normalized input. -/
theorem compute_embedded_spec (inp : AtomicInput) (cfg : TaskConfig) (env : Env)
    (st : EngineState) (h12 : pvLt env.version v1_2 = false)
    (h14 : pvLt env.version v1_4a2dev160 = false)
    (hpsi : getFlag inp.extras "psiapi" = true) :
    compute inp cfg env st =
      embeddedRun inp.model.basis (applyReference (substBasis inp)) cfg env st := by
  unfold compute
  rw [if_neg (by simp [h12]), if_neg (by simp [h14]),
      if_pos (by rw [applyReference_extras, substBasis_extras]; exact hpsi)]

/-- At or above the modern threshold without the psiapi flag the call is the
modern subprocess branch on the normalized input. -/
theorem compute_modern_spec (inp : AtomicInput) (cfg : TaskConfig) (env : Env)
    (st : EngineState) (h12 : pvLt env.version v1_2 = false)
    (h14 : pvLt env.version v1_4a2dev160 = false)
    (hpsi : getFlag inp.extras "psiapi" = false) :
    compute inp cfg env st =
      modernRun inp.model.basis (applyReference (substBasis inp)) cfg env st := by
  unfold compute
  rw [if_neg (by simp [h12]), if_neg (by simp [h14]),
      if_neg (by rw [applyReference_extras, substBasis_extras]; simp [hpsi])]

/-- On every path above the version gate the returned caller input is the
normalized (mutated-in-place) input. -/
theorem compute_final_input (inp : AtomicInput) (cfg : TaskConfig) (env : Env)
    (st : EngineState) (h12 : pvLt env.version v1_2 = false) :
    (compute inp cfg env st).2.2.1 = applyReference (substBasis inp) := by
  unfold compute
  rw [if_neg (by simp [h12])]
  split
  · exact legacyRun_input _ _ _ _ _
  · split
    · exact embeddedRun_input _ _ _ _ _
    · exact modernRun_input _ _ _ _ _

/-- Every returned value of `compute` factors through `finalize` with the
captured original basis and the TaskConfig of the call. -/
theorem compute_ok_shape (inp : AtomicInput) (cfg : TaskConfig) (env : Env)
    (st : EngineState) (od : DataDict)
    (h : (compute inp cfg env st).1 = .ok od) :
    ∃ raw, od = finalize raw inp.model.basis cfg := by
  unfold compute at h
  split at h
  · simp at h
  · split at h
    · exact ⟨_, (legacyRun_ok _ _ _ _ _ _ h).2⟩
    · split at h
      · obtain ⟨st2, out, -, hod⟩ := embeddedRun_ok _ _ _ _ _ _ h
        exact ⟨_, hod⟩
      · exact ⟨_, (modernRun_ok _ _ _ _ _ _ h).2⟩

/-- The fields of every returned value that `finalize` fixes: the restored
basis, the TaskConfig provenance entries, and the dropped return_output. -/
theorem compute_ok_fields (inp : AtomicInput) (cfg : TaskConfig) (env : Env)
    (st : EngineState) (od : DataDict)
    (h : (compute inp cfg env st).1 = .ok od) :
    od.basis = inp.model.basis ∧ od.provMemory = some (roundTo3 cfg.memory) ∧
    od.provNthreads = some cfg.ncores ∧ od.return_output = none := by
  obtain ⟨raw, rfl⟩ := compute_ok_shape inp cfg env st od h
  exact ⟨rfl, rfl, rfl, rfl⟩

/-- A call that returned a value was not stopped by the version gate. -/
theorem compute_ok_ge12 (inp : AtomicInput) (cfg : TaskConfig) (env : Env)
    (st : EngineState) (od : DataDict)
    (h : (compute inp cfg env st).1 = .ok od) :
    pvLt env.version v1_2 = false := by
  cases hv : pvLt env.version v1_2
  · rfl
  · rw [compute_lt12_spec inp cfg env st hv] at h
    simp at h

/-- Unfolding lemma: lookup in a non-empty association list. -/
theorem dictGet_cons {α : Type} (kv : String × α) (t : List (String × α)) (k : String) :
    dictGet (kv :: t) k = if kv.1 == k then some kv.2 else dictGet t k := rfl

/-- On the replace branch of `dictSet`, the written key reads back the new
value. -/
theorem dictGet_setAll {α : Type} (m : List (String × α)) (k : String) (v : α)
    (h : (m.map Prod.fst).contains k = true) :
    dictGet (m.map fun kv => if kv.1 == k then (kv.1, v) else kv) k = some v := by
  induction m with
  | nil => simp at h
  | cons kv t ih =>
    by_cases hk : kv.1 = k
    · rw [List.map_cons, if_pos (show (kv.1 == k) = true by simp [hk]), dictGet_cons,
          if_pos (show ((kv.1, v).1 == k) = true by simp [hk])]
    · have h2 : (t.map Prod.fst).contains k = true := by
        simp only [List.map_cons, List.contains_cons, Bool.or_eq_true, beq_iff_eq] at h
        rcases h with h | h
        · exact absurd h.symm hk
        · exact h
      rw [List.map_cons, if_neg (show ¬(kv.1 == k) = true by simp [hk]), dictGet_cons,
          if_neg (show ¬(kv.1 == k) = true by simp [hk])]
      exact ih h2

/-- On the append branch of `dictSet`, the appended key reads back its
value. -/
theorem dictGet_append_new {α : Type} (m : List (String × α)) (k : String) (v : α)
    (h : (m.map Prod.fst).contains k = false) :
    dictGet (m ++ [(k, v)]) k = some v := by
  induction m with
  | nil =>
    rw [List.nil_append, dictGet_cons, if_pos (show (k == k) = true by simp)]
  | cons kv t ih =>
    simp only [List.map_cons, List.contains_cons, Bool.or_eq_false_iff,
      beq_eq_false_iff_ne] at h
    rw [List.cons_append, dictGet_cons, if_neg (show ¬(kv.1 == k) = true by
      simp only [beq_iff_eq]; exact fun he => h.1 he.symm)]
    exact ih h.2

/-- On the replace branch of `dictSet`, every other key is unchanged. -/
theorem dictGet_setAll_ne {α : Type} (m : List (String × α)) (k k2 : String) (v : α)
    (hne : k2 ≠ k) :
    dictGet (m.map fun kv => if kv.1 == k then (kv.1, v) else kv) k2 = dictGet m k2 := by
  induction m with
  | nil => rfl
  | cons kv t ih =>
    by_cases hk : kv.1 = k
    · have hb2 : ¬(kv.1 == k2) = true := by
        simp only [beq_iff_eq, hk]
        exact fun he => hne he.symm
      rw [List.map_cons, if_pos (show (kv.1 == k) = true by simp [hk]), dictGet_cons,
          dictGet_cons, if_neg (show ¬((kv.1, v).1 == k2) = true by simpa using hb2),
          if_neg hb2]
      exact ih
    · rw [List.map_cons, if_neg (show ¬(kv.1 == k) = true by simp [hk]), dictGet_cons,
          dictGet_cons, ih]

/-- On the append branch of `dictSet`, every other key is unchanged. -/
theorem dictGet_append_ne {α : Type} (m : List (String × α)) (k k2 : String) (v : α)
    (hne : k2 ≠ k) :
    dictGet (m ++ [(k, v)]) k2 = dictGet m k2 := by
  induction m with
  | nil =>
    rw [List.nil_append, dictGet_cons, if_neg (show ¬(k == k2) = true by
      simp only [beq_iff_eq]; exact fun he => hne he.symm)]
  | cons kv t ih =>
    rw [List.cons_append, dictGet_cons, dictGet_cons, ih]

/-- Setting a key in a dictionary makes it readable. -/
theorem dictGet_dictSet_self {α : Type} (m : List (String × α)) (k : String) (v : α) :
    dictGet (dictSet m k v) k = some v := by
  unfold dictSet
  split
  case isTrue h => exact dictGet_setAll m k v h
  case isFalse h => exact dictGet_append_new m k v (by simpa using h)

/-- Setting a key in a dictionary leaves every other key unchanged. -/
theorem dictGet_dictSet_ne {α : Type} (m : List (String × α)) (k k2 : String) (v : α)
    (hne : k2 ≠ k) :
    dictGet (dictSet m k v) k2 = dictGet m k2 := by
  unfold dictSet
  split
  · exact dictGet_setAll_ne m k k2 v hne
  · exact dictGet_append_ne m k k2 v hne

/-- Defaulting the extras key does not change what the harness subsequently
reads from it. -/
theorem ensureExtras_getD (od : DataDict) :
    (ensureExtras od).extras.getD [] = od.extras.getD [] := by
  unfold ensureExtras
  split
  case isTrue h => rw [h]; rfl
  case isFalse h => rfl

/-- The qcvars relocation always removes the top-level psi4:qcvars key. -/
theorem relocateQcvars_qcvars (od : DataDict) : (relocateQcvars od).qcvars = none := by
  unfold relocateQcvars
  split
  · rfl
  · split
    · rfl
    · split <;> rfl

/-- A non-empty payload lands under qcvars when that key is free. -/
theorem relocateQcvars_extras_new (od : DataDict) (l : List (String × Rat))
    (hq : od.qcvars = some l) (hl : l ≠ [])
    (hc : ((od.extras.getD []).map Prod.fst).contains "qcvars" = false) :
    dictGet ((relocateQcvars od).extras.getD []) "qcvars" = some (.vars l) := by
  unfold relocateQcvars
  rw [hq]
  have hle : l.isEmpty = false := by simpa using hl
  simp only [hle, ensureExtras_getD, hc, Bool.false_eq_true, if_false, Option.getD_some]
  exact dictGet_dictSet_self _ _ _

/-- A non-empty payload lands under local_qcvars when qcvars is occupied,
and the occupied qcvars entry is untouched. -/
theorem relocateQcvars_extras_occupied (od : DataDict) (l : List (String × Rat))
    (hq : od.qcvars = some l) (hl : l ≠ [])
    (hc : ((od.extras.getD []).map Prod.fst).contains "qcvars" = true) :
    dictGet ((relocateQcvars od).extras.getD []) "local_qcvars" = some (.vars l) ∧
    dictGet ((relocateQcvars od).extras.getD []) "qcvars" =
      dictGet (od.extras.getD []) "qcvars" := by
  unfold relocateQcvars
  rw [hq]
  have hle : l.isEmpty = false := by simpa using hl
  simp only [hle, ensureExtras_getD, hc, Bool.false_eq_true, if_false, if_true,
    Option.getD_some]
  exact ⟨dictGet_dictSet_self _ _ _, dictGet_dictSet_ne _ _ _ _ (by decide)⟩

/-- The Python truncation of a nonnegative rational is at most the
rational. -/
theorem pyTrunc_le (q : Rat) (h : 0 ≤ q) : (pyTrunc q : Rat) ≤ q := by
  unfold pyTrunc
  rw [if_pos (Rat.num_nonneg.mpr h)]
  have hfd : Int.ediv q.num q.den = Int.floor q := by rw [Rat.floor_def]; rfl
  rw [hfd]
  exact Int.floor_le q

/-- The truncated 95 percent byte budget is strictly below the full byte
budget for every positive memory budget. -/
theorem legacy_mem_lt (m : Rat) (hm : 0 < m) :
    ((pyTrunc (m * (1024 * 1024 * 1024) * (19 / 20)) : Int) : Rat) <
      m * (1024 * 1024 * 1024) := by
  have h0 : (0 : Rat) ≤ m * (1024 * 1024 * 1024) * (19 / 20) := by positivity
  have h1 := pyTrunc_le (m * (1024 * 1024 * 1024) * (19 / 20)) h0
  have hG : (0 : Rat) < m * (1024 * 1024 * 1024) := by positivity
  nlinarith [h1, hG]

/-- C3: a resolved version below the minimum threshold makes `compute` raise
`ResourceError` with an empty effect trace — no scratch directory is created
and no engine subprocess is invoked. -/
theorem compute_version_gate (inp : AtomicInput) (cfg : TaskConfig) (env : Env)
    (st : EngineState) (h : pvLt env.version v1_2 = true) :
    (compute inp cfg env st).1 = .error (.classified (.resourceError
      ("Psi4 version " ++ env.versionString ++ " not understood."))) ∧
    (compute inp cfg env st).2.1 = [] := by
  unfold compute
  simp [h]

/-- Version 1.1, below the minimum supported threshold. -/
def v1_1 : PVersion := { release := [1, 1] }

/-- Environment resolving to version 1.1 (concrete scenario A). -/
def envOld : Env := { version := v1_1, versionString := "1.1" }

/-- Witness for C3 at version 1.1. -/
theorem compute_version_gate_witness :
    pvLt envOld.version v1_2 = true ∧
    ((compute {} {} envOld {}).1 = .error (.classified (.resourceError
      ("Psi4 version " ++ envOld.versionString ++ " not understood."))) ∧
     (compute {} {} envOld {}).2.1 = []) :=
  ⟨by decide, compute_version_gate {} {} envOld {} (by decide)⟩

/-- Basis substitution leaves the keyword mapping unchanged. -/
theorem substBasis_keywords (inp : AtomicInput) : (substBasis inp).keywords = inp.keywords := rfl

/-- The reference guard does not see the basis substitution. -/
theorem refCondition_substBasis (inp : AtomicInput) :
    refCondition (substBasis inp) = refCondition inp := rfl

/-- A legacy release such as 1.3, between the two thresholds. -/
def vLegacy : PVersion := { release := [1, 3] }

/-- The version 1.4a2.dev200, at or above the modern threshold (concrete
scenario B). -/
def vModern : PVersion := { release := [1, 4], pre := some (0, 2), dev := some 200 }

/-- A successful engine output that echoes bogus provenance values. -/
def okOut : DataDict :=
  { schema_name := "qcschema_output", success := some true, extras := some [],
    provMemory := some 7, provNthreads := some 99 }

/-- A plain TaskConfig: 4 cores, 1.5 GB. -/
def cfgStd : TaskConfig := { ncores := 4, memory := 3 / 2 }

/-- A TaskConfig whose memory has more than three decimal places. -/
def cfgTiny : TaskConfig := { ncores := 2, memory := 1 / 10000 }

/-- A modern-protocol environment whose subprocess call succeeds with
`okOut`. -/
def envModernOk : Env :=
  { version := vModern, versionString := "1.4a2.dev200",
    modernExec := { success := true, stderr := "", out := okOut } }

/-- A successful legacy output carrying an empty psi4:qcvars payload. -/
def outEmptyQcvars : DataDict :=
  { schema_name := "qcschema_output", success := some true, extras := some [],
    qcvars := some [] }

/-- A legacy-protocol environment whose subprocess call succeeds with
`outEmptyQcvars`. -/
def envLegacyOk : Env :=
  { version := vLegacy, versionString := "1.3",
    legacyExec := { success := true, stderr := "", out := outEmptyQcvars } }

/-- A successful legacy output carrying a non-empty psi4:qcvars payload. -/
def outFullQcvars : DataDict :=
  { schema_name := "qcschema_output", success := some true, extras := some [],
    qcvars := some [("CURRENT ENERGY", 3)] }

/-- A legacy-protocol environment whose subprocess call succeeds with
`outFullQcvars`. -/
def envLegacyVars : Env :=
  { version := vLegacy, versionString := "1.3",
    legacyExec := { success := true, stderr := "", out := outFullQcvars } }

/-- An engine state with a known default path before an embedded call. -/
def stOrig : EngineState := { default_path := "scr_orig", num_threads := 1, memory_setting := "" }

/-- A modern environment whose embedded entry point moves the default path
and then raises. -/
def envEmbedRaise : Env :=
  { version := vModern, versionString := "1.4a2.dev200",
    runQcschema := fun st2 _ => .raises { st2 with default_path := "scr_moved" } }

/-- A modern environment whose embedded entry point moves the default path
and returns successfully. -/
def envEmbedOk : Env :=
  { version := vModern, versionString := "1.4a2.dev200",
    runQcschema := fun st2 _ => .ok { st2 with default_path := "scr_inside" } okOut }

/-- A request asking for the embedded call through its extras mapping. -/
def inpPsiapi : AtomicInput := { extras := [("psiapi", .flag true)] }

/-- A request with multiplicity 3, no keywords, and a null basis. -/
def inpMult : AtomicInput := { molecular_multiplicity := 3 }

/-- A request whose basis descriptor is the empty string. -/
def inpEmptyBasis : AtomicInput := { model := { basis := some "" } }

/-- C4 amended: for every value-returning compute call the provenance
nthreads equals the TaskConfig core count exactly and the provenance memory
equals the TaskConfig memory rounded half-even to three decimal places (so
it can differ from the supplied value when that value carries more
precision); neither field comes from the raw engine output, which is
universally quantified here. -/
theorem provenance_from_config (inp : AtomicInput) (cfg : TaskConfig) (env : Env)
    (st : EngineState) (od : DataDict)
    (h : (compute inp cfg env st).1 = .ok od) :
    od.provMemory = some (roundTo3 cfg.memory) ∧ od.provNthreads = some cfg.ncores :=
  ⟨(compute_ok_fields inp cfg env st od h).2.1,
   (compute_ok_fields inp cfg env st od h).2.2.1⟩

/-- C4 counterexample: with TaskConfig memory 1/10000 GB a successful modern
call returns provenance memory 0 (the rounded value) — not the supplied
1/10000, and not the echoed 7 from the raw output. -/
theorem provenance_memory_cex :
    cfgTiny.memory = 1 / 10000 ∧
    okOut.provMemory = some 7 ∧
    (compute {} cfgTiny envModernOk {}).1.toOption.map DataDict.provMemory =
      some (some 0) ∧
    (some (some (0 : Rat)) ≠ some (some ((1 : Rat) / 10000))) := by
  refine ⟨rfl, rfl, ?_, ?_⟩
  · with_unfolding_all rfl
  · with_unfolding_all decide

/-- Witness for the amended C4 at a concrete successful modern call. -/
theorem provenance_from_config_witness :
    (compute {} cfgStd envModernOk {}).1 = .ok (finalize okOut none cfgStd) ∧
    ((finalize okOut none cfgStd).provMemory = some (roundTo3 cfgStd.memory) ∧
     (finalize okOut none cfgStd).provNthreads = some cfgStd.ncores) :=
  ⟨rfl, provenance_from_config {} cfgStd envModernOk {} (finalize okOut none cfgStd) rfl⟩

/-- C5 amended: every value-returning call restores the original basis
descriptor in its result; but because the placeholder substitution mutates
the request in place, a second value-returning call on the returned request
yields some (basis.getD "") — equal to the original for an empty-string
descriptor, and equal to some "" rather than none when the original was
null. -/
theorem basis_restore_and_rerun (inp : AtomicInput) (cfg : TaskConfig) (env : Env)
    (st : EngineState) (od : DataDict)
    (h : (compute inp cfg env st).1 = .ok od) :
    od.basis = inp.model.basis ∧
    (∀ cfg2 env2 st2 od2,
      (compute ((compute inp cfg env st).2.2.1) cfg2 env2 st2).1 = .ok od2 →
      od2.basis = some (inp.model.basis.getD "")) := by
  refine ⟨(compute_ok_fields inp cfg env st od h).1, ?_⟩
  intro cfg2 env2 st2 od2 h2
  have h12 := compute_ok_ge12 inp cfg env st od h
  have hfi := compute_final_input inp cfg env st h12
  have hb := (compute_ok_fields _ cfg2 env2 st2 od2 h2).1
  rw [hfi] at hb
  rw [hb, applyReference_model]
  exact substBasis_model_basis inp

/-- C5 counterexample: with a null basis descriptor the first call returns
the original null, but running the call again on the same (mutated) request
returns the placeholder some "", not the original null. -/
theorem basis_idempotence_cex :
    ({} : AtomicInput).model.basis = none ∧
    (compute {} cfgStd envModernOk {}).1.toOption.map DataDict.basis = some none ∧
    (compute ((compute {} cfgStd envModernOk {}).2.2.1) cfgStd envModernOk {}).1.toOption.map
      DataDict.basis = some (some "") ∧
    (some (some "") ≠ some (Option.none (α := String))) := by
  exact ⟨rfl, rfl, rfl, by decide⟩

/-- Witness for the amended C5 at a concrete empty-string-basis request run
twice through a successful modern environment. -/
theorem basis_restore_and_rerun_witness :
    (compute inpEmptyBasis cfgStd envModernOk {}).1 = .ok (finalize okOut (some "") cfgStd) ∧
    (finalize okOut (some "") cfgStd).basis = inpEmptyBasis.model.basis ∧
    (compute ((compute inpEmptyBasis cfgStd envModernOk {}).2.2.1) cfgStd envModernOk {}).1 =
      .ok (finalize okOut (some "") cfgStd) ∧
    (finalize okOut (some "") cfgStd).basis = some (inpEmptyBasis.model.basis.getD "") :=
  ⟨rfl,
   (basis_restore_and_rerun inpEmptyBasis cfgStd envModernOk {} (finalize okOut (some "") cfgStd)
      rfl).1,
   rfl,
   (basis_restore_and_rerun inpEmptyBasis cfgStd envModernOk {} (finalize okOut (some "") cfgStd)
      rfl).2 cfgStd envModernOk {} (finalize okOut (some "") cfgStd) rfl⟩

/-- C6 counterexample: a call with a null basis and multiplicity 3 mutates
the caller request in place — afterwards the caller basis reads some ""
where it was none, and the caller keyword mapping contains the injected
reference entry where it was empty. -/
theorem request_mutation_cex :
    inpMult.model.basis = none ∧ inpMult.keywords = [] ∧
    (compute inpMult cfgStd envModernOk {}).2.2.1.model.basis = some "" ∧
    (compute inpMult cfgStd envModernOk {}).2.2.1.keywords = [("reference", "uhf")] := by
  exact ⟨rfl, rfl, rfl, rfl⟩

/-- C6 amended: compute does mutate the caller request, and exactly thus:
above the version gate the basis descriptor is overwritten with the
placeholder completion some (basis.getD "") and, exactly when the reference
guard holds, the binding (reference, uhf) is written into the caller keyword
mapping; schema name, multiplicity and extras never change; and the mutation
persists on every exit path.  (Below the gate the request is returned
untouched, which is immediate from compute.) -/
theorem request_mutation_amended (inp : AtomicInput) (cfg : TaskConfig) (env : Env)
    (st : EngineState) (h12 : pvLt env.version v1_2 = false) :
    (compute inp cfg env st).2.2.1.model.basis = some (inp.model.basis.getD "") ∧
    (compute inp cfg env st).2.2.1.keywords =
      (if refCondition inp then dictSet inp.keywords "reference" "uhf" else inp.keywords) ∧
    (compute inp cfg env st).2.2.1.schema_name = inp.schema_name ∧
    (compute inp cfg env st).2.2.1.molecular_multiplicity = inp.molecular_multiplicity ∧
    (compute inp cfg env st).2.2.1.extras = inp.extras := by
  rw [compute_final_input inp cfg env st h12]
  refine ⟨?_, ?_, ?_, ?_, ?_⟩
  · rw [applyReference_model]
    exact substBasis_model_basis inp
  · rw [applyReference_keywords, refCondition_substBasis, substBasis_keywords]
  · rw [applyReference_schema]
    rfl
  · rw [applyReference_mult]
    rfl
  · rw [applyReference_extras]
    rfl

/-- Witness for the amended C6: the mutated basis and injected keyword at a
concrete multiplicity-3 request. -/
theorem request_mutation_amended_witness :
    pvLt envModernOk.version v1_2 = false ∧
    (compute inpMult cfgStd envModernOk {}).2.2.1.model.basis =
      some (inpMult.model.basis.getD "") ∧
    (compute inpMult cfgStd envModernOk {}).2.2.1.keywords =
      (if refCondition inpMult then dictSet inpMult.keywords "reference" "uhf"
       else inpMult.keywords) :=
  ⟨by decide,
   (request_mutation_amended inpMult cfgStd envModernOk {} (by decide)).1,
   (request_mutation_amended inpMult cfgStd envModernOk {} (by decide)).2.1⟩

/-- C7: at or above the modern threshold, when the extras mapping does not
request the embedded call, the dispatcher invokes the engine subprocess with
the modern file-protocol arguments — scratch directory, nthread count,
memory in GB, and the msgpack qcschema input — staging and reading back
data.msgpack as binary msgpack. -/
theorem modern_dispatch_cmd (inp : AtomicInput) (cfg : TaskConfig) (env : Env)
    (st : EngineState) (h12 : pvLt env.version v1_2 = false)
    (h14 : pvLt env.version v1_4a2dev160 = false)
    (hpsi : getFlag inp.extras "psiapi" = false) :
    (compute inp cfg env st).2.1 =
      [Effect.scratchCreate env.tmpdir,
       Effect.execute
         [env.psi4Path, "--scratch", env.tmpdir, "--nthread", toString cfg.ncores,
          "--memory", pyFloatStr cfg.memory ++ "GB", "--qcschema", "data.msgpack"]
         [("data.msgpack", Staged.msgpackBin (inputAsDict (applyReference (substBasis inp))))]
         ["data.msgpack"] ["data.msgpack"],
       Effect.scratchRemove env.tmpdir] := by
  rw [compute_modern_spec inp cfg env st h12 h14 hpsi, modernRun_eff]
  rfl

/-- Witness for C7 at version 1.4a2.dev200 with empty extras (concrete
scenario B). -/
theorem modern_dispatch_cmd_witness :
    pvLt envModernOk.version v1_2 = false ∧
    pvLt envModernOk.version v1_4a2dev160 = false ∧
    getFlag ({} : AtomicInput).extras "psiapi" = false ∧
    (compute {} cfgStd envModernOk {}).2.1 =
      [Effect.scratchCreate envModernOk.tmpdir,
       Effect.execute
         [envModernOk.psi4Path, "--scratch", envModernOk.tmpdir, "--nthread",
          toString cfgStd.ncores, "--memory", pyFloatStr cfgStd.memory ++ "GB",
          "--qcschema", "data.msgpack"]
         [("data.msgpack", Staged.msgpackBin (inputAsDict (applyReference (substBasis {}))))]
         ["data.msgpack"] ["data.msgpack"],
       Effect.scratchRemove envModernOk.tmpdir] :=
  ⟨by decide, by decide, by decide,
   modern_dispatch_cmd {} cfgStd envModernOk {} (by decide) (by decide) (by decide)⟩

/-- C8 counterexample: when the embedded entry point moves the engine
default path and then raises, compute propagates the exception without any
restore — the engine is left on the moved path, not the captured prior
one. -/
theorem embedded_restore_cex :
    stOrig.default_path = "scr_orig" ∧
    (compute inpPsiapi cfgStd envEmbedRaise stOrig).1 = .error .embeddedRaise ∧
    (compute inpPsiapi cfgStd envEmbedRaise stOrig).2.2.2.default_path = "scr_moved" ∧
    ("scr_moved" ≠ "scr_orig") := by
  exact ⟨rfl, rfl, rfl, by decide⟩

/-- C8 amended: in the embedded branch the captured prior default path is
re-applied only on the success outcome of the entry point; when the entry
point raises, no restore statement runs and the final engine state is
exactly the state the raising entry point left behind. -/
theorem embedded_restore_amended (inp : AtomicInput) (cfg : TaskConfig) (env : Env)
    (st : EngineState) (h12 : pvLt env.version v1_2 = false)
    (h14 : pvLt env.version v1_4a2dev160 = false)
    (hpsi : getFlag inp.extras "psiapi" = true) :
    (∀ st2 out,
      env.runQcschema (embedSetup st cfg) (applyReference (substBasis inp)) = .ok st2 out →
      (compute inp cfg env st).2.2.2.default_path = st.default_path) ∧
    (∀ st2,
      env.runQcschema (embedSetup st cfg) (applyReference (substBasis inp)) = .raises st2 →
      (compute inp cfg env st).2.2.2 = st2) := by
  rw [compute_embedded_spec inp cfg env st h12 h14 hpsi]
  constructor
  · intro st2 out hq
    unfold embeddedRun
    rw [hq]
    dsimp only
    split <;> rfl
  · intro st2 hq
    unfold embeddedRun
    rw [hq]

/-- Witness for the amended C8: the success outcome restores the prior
default path at a concrete embedded environment. -/
theorem embedded_restore_amended_witness :
    pvLt envEmbedOk.version v1_2 = false ∧
    pvLt envEmbedOk.version v1_4a2dev160 = false ∧
    getFlag inpPsiapi.extras "psiapi" = true ∧
    (compute inpPsiapi cfgStd envEmbedOk stOrig).2.2.2.default_path =
      stOrig.default_path :=
  ⟨by decide, by decide, by decide,
   (embedded_restore_amended inpPsiapi cfgStd envEmbedOk stOrig
      (by decide) (by decide) (by decide)).1 _ _ rfl⟩

/-- C9 amended: on a value-returning legacy call whose raw output holds a
NON-EMPTY psi4:qcvars payload, the payload is removed from the top level and
placed into extras — under qcvars when that key is free, under local_qcvars
when qcvars is occupied, leaving the pre-existing qcvars entry unchanged.
(An empty payload is removed but not placed anywhere — Python truthiness —
which is the correction to the claim.) -/
theorem qcvars_relocation_amended (inp : AtomicInput) (cfg : TaskConfig) (env : Env)
    (st : EngineState) (od : DataDict) (l : List (String × Rat))
    (h12 : pvLt env.version v1_2 = false)
    (h14 : pvLt env.version v1_4a2dev160 = true)
    (hq : env.legacyExec.out.qcvars = some l) (hl : l ≠ [])
    (hok : (compute inp cfg env st).1 = .ok od) :
    od.qcvars = none ∧
    ((((env.legacyExec.out.extras.getD []).map Prod.fst).contains "qcvars") = false →
      dictGet (od.extras.getD []) "qcvars" = some (.vars l)) ∧
    ((((env.legacyExec.out.extras.getD []).map Prod.fst).contains "qcvars") = true →
      dictGet (od.extras.getD []) "local_qcvars" = some (.vars l) ∧
      dictGet (od.extras.getD []) "qcvars" =
        dictGet (env.legacyExec.out.extras.getD []) "qcvars") := by
  rw [compute_legacy_spec inp cfg env st h12 h14] at hok
  obtain ⟨hs, rfl⟩ := legacyRun_ok _ _ _ _ _ _ hok
  refine ⟨relocateQcvars_qcvars _, ?_, ?_⟩
  · intro hc
    exact relocateQcvars_extras_new env.legacyExec.out l hq hl hc
  · intro hc
    exact relocateQcvars_extras_occupied env.legacyExec.out l hq hl hc

/-- C9 counterexample: an empty psi4:qcvars payload in a successful legacy
output is removed from the top level but never placed in extras — the result
extras stay empty, with no qcvars entry. -/
theorem qcvars_relocation_cex :
    envLegacyOk.legacyExec.out.qcvars = some [] ∧
    (compute {} cfgStd envLegacyOk {}).1.toOption.map DataDict.qcvars = some none ∧
    (compute {} cfgStd envLegacyOk {}).1.toOption.map DataDict.extras =
      some (some []) := by
  exact ⟨rfl, rfl, rfl⟩

/-- Witness for the amended C9: a non-empty payload at a concrete legacy
call lands under the free qcvars key of the result extras. -/
theorem qcvars_relocation_amended_witness :
    pvLt envLegacyVars.version v1_2 = false ∧
    pvLt envLegacyVars.version v1_4a2dev160 = true ∧
    envLegacyVars.legacyExec.out.qcvars = some [("CURRENT ENERGY", (3 : Rat))] ∧
    (compute {} cfgStd envLegacyVars {}).1 =
      .ok (finalize (legacyReset (relocateQcvars outFullQcvars)) none cfgStd) ∧
    (finalize (legacyReset (relocateQcvars outFullQcvars)) none cfgStd).qcvars = none ∧
    dictGet ((finalize (legacyReset (relocateQcvars outFullQcvars)) none cfgStd).extras.getD [])
      "qcvars" = some (.vars [("CURRENT ENERGY", 3)]) :=
  ⟨by decide, by decide, rfl, rfl,
   (qcvars_relocation_amended {} cfgStd envLegacyVars {}
      (finalize (legacyReset (relocateQcvars outFullQcvars)) none cfgStd)
      [("CURRENT ENERGY", 3)] (by decide) (by decide) rfl (by decide) rfl).1,
   (qcvars_relocation_amended {} cfgStd envLegacyVars {}
      (finalize (legacyReset (relocateQcvars outFullQcvars)) none cfgStd)
      [("CURRENT ENERGY", 3)] (by decide) (by decide) rfl (by decide) rfl).2.1
     (by decide)⟩

/-- C10: in the legacy branch the staged memory equals int of (memory in GB
times 2 to the 30 times 0.95) bytes — strictly below the full byte budget
for every positive budget — while the provenance reported on a
value-returning call is round(memory, 3), not the 95 percent byte value. -/
theorem legacy_memory_budget (inp : AtomicInput) (cfg : TaskConfig) (env : Env)
    (st : EngineState) (h12 : pvLt env.version v1_2 = false)
    (h14 : pvLt env.version v1_4a2dev160 = true)
    (hm : 0 < cfg.memory) :
    (compute inp cfg env st).2.1 =
      [Effect.scratchCreate env.tmpdir,
       Effect.execute (legacyCmd env)
         [("data.json", Staged.jsonText
            (legacyInputData (applyReference (substBasis inp)) cfg))] ["data.json"] [],
       Effect.scratchRemove env.tmpdir] ∧
    (legacyInputData (applyReference (substBasis inp)) cfg).memory =
      some (pyTrunc (cfg.memory * (1024 * 1024 * 1024) * (19 / 20))) ∧
    ((pyTrunc (cfg.memory * (1024 * 1024 * 1024) * (19 / 20)) : Int) : Rat) <
      cfg.memory * (1024 * 1024 * 1024) ∧
    (∀ od, (compute inp cfg env st).1 = .ok od →
      od.provMemory = some (roundTo3 cfg.memory)) := by
  refine ⟨?_, ?_, legacy_mem_lt cfg.memory hm, ?_⟩
  · rw [compute_legacy_spec inp cfg env st h12 h14, legacyRun_eff]
    rfl
  · unfold legacyInputData
    split <;> rfl
  · intro od hok
    exact (compute_ok_fields inp cfg env st od hok).2.1

/-- Witness for C10 at a concrete legacy environment with memory 1.5 GB. -/
theorem legacy_memory_budget_witness :
    pvLt envLegacyOk.version v1_2 = false ∧
    pvLt envLegacyOk.version v1_4a2dev160 = true ∧
    ((0 : Rat) < cfgStd.memory) ∧
    (legacyInputData (applyReference (substBasis {})) cfgStd).memory =
      some (pyTrunc (cfgStd.memory * (1024 * 1024 * 1024) * (19 / 20))) ∧
    (((pyTrunc (cfgStd.memory * (1024 * 1024 * 1024) * (19 / 20)) : Int) : Rat) <
      cfgStd.memory * (1024 * 1024 * 1024)) :=
  ⟨by decide, by decide, by with_unfolding_all decide,
   (legacy_memory_budget {} cfgStd envLegacyOk {} (by decide) (by decide)
      (by with_unfolding_all decide)).2.1,
   (legacy_memory_budget {} cfgStd envLegacyOk {} (by decide) (by decide)
      (by with_unfolding_all decide)).2.2.1⟩

end Psi4
